import Mathlib

/-!
Shallow embedding of the configuration resolution and validation engine of the
multi-regional CDK demo repository (`cdk/config/config-manager.ts`,
`cdk/config/types.ts`, `cdk/stacks/network-stack.ts`), together with theorems
settling the specification claims about it.

Strings are modelled by Lean `String`; the character-level JavaScript string
operations used by the source (`split`, `startsWith`, `join`, regex tests) are
modelled as executable functions on `List Char`.
-/

namespace MultiRegionCdk

/-! ### JavaScript string primitives -/

/-- Model of JavaScript `s.split(sep)` for a one-character separator `sep`.
`jsSplit sep cs` never returns an empty list, and splitting the empty string
yields `[[]]`, as in JavaScript. -/
def jsSplit (sep : Char) : List Char → List (List Char)
  | [] => [[]]
  | c :: cs =>
    if c = sep then [] :: jsSplit sep cs
    else
      match jsSplit sep cs with
      | [] => [[c]]
      | piece :: pieces => (c :: piece) :: pieces

/-- Model of JavaScript `s.startsWith(p)`. -/
def listStartsWith : List Char → List Char → Bool
  | _, [] => true
  | [], _ :: _ => false
  | c :: cs, p :: ps => c == p && listStartsWith cs ps

/-- `jsStartsWith s p` models `s.startsWith(p)` on `String`s. -/
def jsStartsWith (s p : String) : Bool :=
  listStartsWith s.data p.data

/-- Numeric value of a decimal digit string; models `Number(s)` and
`parseInt(s, 10)` at the call sites of the source, all of which are guarded by
a regular expression ensuring the argument consists only of decimal digits. -/
def digitsToNat (cs : List Char) : Nat :=
  cs.foldl (fun acc c => acc * 10 + (c.toNat - 48)) 0

/-- Greedy scanner: split a character list into the longest prefix whose
characters all satisfy `p`, and the remainder.  Used to model the greedy
quantifiers (`\d+`, `[a-z]+`, ...) of the source's regular expressions; in
every pattern of the source the character class of a quantifier is disjoint
from the character that follows it, so greedy scanning without backtracking
recognises exactly the regex language. -/
def chompWhile (p : Char → Bool) : List Char → List Char × List Char
  | [] => ([], [])
  | c :: cs =>
    if p c then
      let r := chompWhile p cs
      (c :: r.1, r.2)
    else ([], c :: cs)

/-! ### Regular-expression recognisers of `config-manager.ts`

Each recogniser is the embedding of one regex literal of the source, written
as an explicit scanner. -/

/-- One octet of a CIDR: `\d{1,3}`, greedy. -/
def scanOctet (cs : List Char) : Option (List Char × List Char) :=
  if 1 ≤ (chompWhile Char.isDigit cs).1.length ∧ (chompWhile Char.isDigit cs).1.length ≤ 3 then
    some (chompWhile Char.isDigit cs)
  else none

/-- One octet followed by a literal dot: `\d{1,3}\.`. -/
def scanOctetDot (cs : List Char) : Option (List Char × List Char) :=
  match scanOctet cs with
  | some (o, c :: r) => if c = '.' then some (o, r) else none
  | _ => none

/-- Scanner for the source's CIDR regex `^(\d{1,3}\.){3}\d{1,3}\/(\d{1,2})$`
(the same pattern appears, without the capture group, in
`ConfigurationManager.validateCidrBlocks`).  On success it returns the four
octet substrings and the digit string after the slash. -/
def scanCidr (cs : List Char) :
    Option (List Char × List Char × List Char × List Char × List Char) :=
  match scanOctetDot cs with
  | none => none
  | some (o1, r1) =>
    match scanOctetDot r1 with
    | none => none
    | some (o2, r2) =>
      match scanOctetDot r2 with
      | none => none
      | some (o3, r3) =>
        match scanOctet r3 with
        | none => none
        | some (o4, r4) =>
          match r4 with
          | '/' :: r5 =>
            if 1 ≤ (chompWhile Char.isDigit r5).1.length ∧
                (chompWhile Char.isDigit r5).1.length ≤ 2 ∧
                (chompWhile Char.isDigit r5).2 = [] then
              some (o1, o2, o3, o4, (chompWhile Char.isDigit r5).1)
            else none
          | _ => none

/-- Test for the CIDR regex `^(\d{1,3}\.){3}\d{1,3}\/(\d{1,2})$`. -/
def cidrRegexTest (cs : List Char) : Bool :=
  (scanCidr cs).isSome

/-- Test for the region-name regex `^[a-z]{2}-[a-z]+-\d+$`. -/
def regionNameTest (cs : List Char) : Bool :=
  match chompWhile Char.isLower cs with
  | (l1, '-' :: r1) =>
    if l1.length = 2 then
      match chompWhile Char.isLower r1 with
      | (l2, '-' :: r2) =>
        if 1 ≤ l2.length then
          let d := chompWhile Char.isDigit r2
          decide (1 ≤ d.1.length) && d.2.isEmpty
        else false
      | _ => false
    else false
  | _ => false

/-- Test for the availability-zone regex `^[a-z]{2}-[a-z]+-\d+[a-z]$` used by
`ConfigurationValidator.validateAvailabilityZone`. -/
def azPatternTest (cs : List Char) : Bool :=
  match chompWhile Char.isLower cs with
  | (l1, '-' :: r1) =>
    if l1.length = 2 then
      match chompWhile Char.isLower r1 with
      | (l2, '-' :: r2) =>
        if 1 ≤ l2.length then
          match chompWhile Char.isDigit r2 with
          | (d, [c]) => decide (1 ≤ d.length) && c.isLower
          | _ => false
        else false
      | _ => false
    else false
  | _ => false

/-- Test for the instance-type regex `^[a-z]\d+[a-z]*\.[a-z0-9]+$`. -/
def instanceTypeTest (cs : List Char) : Bool :=
  match cs with
  | c0 :: r0 =>
    if c0.isLower then
      let d := chompWhile Char.isDigit r0
      if 1 ≤ d.1.length then
        match chompWhile Char.isLower d.2 with
        | (_, '.' :: r2) =>
          let t := chompWhile (fun c => c.isLower || c.isDigit) r2
          decide (1 ≤ t.1.length) && t.2.isEmpty
        | _ => false
      else false
    else false
  | [] => false

/-- Test for the RDS instance-class regex `^db\.[a-z]\d+\.[a-z0-9]+$`. -/
def dbInstanceClassTest (cs : List Char) : Bool :=
  match cs with
  | 'd' :: 'b' :: '.' :: c0 :: r0 =>
    if c0.isLower then
      match chompWhile Char.isDigit r0 with
      | (d, '.' :: r1) =>
        if 1 ≤ d.length then
          let t := chompWhile (fun c => c.isLower || c.isDigit) r1
          decide (1 ≤ t.1.length) && t.2.isEmpty
        else false
      | _ => false
    else false
  | _ => false

/-- Test for the engine-version regex `^\d+\.\d+(\.\d+)?$`. -/
def engineVersionTest (cs : List Char) : Bool :=
  match chompWhile Char.isDigit cs with
  | (d1, '.' :: r1) =>
    if 1 ≤ d1.length then
      match chompWhile Char.isDigit r1 with
      | (d2, r2) =>
        if 1 ≤ d2.length then
          match r2 with
          | [] => true
          | '.' :: r3 =>
            let d3 := chompWhile Char.isDigit r3
            decide (1 ≤ d3.1.length) && d3.2.isEmpty
          | _ => false
        else false
    else false
  | _ => false

example : regionNameTest "us-east-1".data = true := by decide
example : regionNameTest "invalid-region".data = false := by decide
example : regionNameTest "US-EAST-1".data = false := by decide
example : azPatternTest "us-east-1a".data = true := by decide
example : azPatternTest "us-east-1aa".data = false := by decide
example : instanceTypeTest "t3.micro".data = true := by decide
example : instanceTypeTest "c5n.xlarge".data = true := by decide
example : instanceTypeTest "invalid-type".data = false := by decide
example : dbInstanceClassTest "db.t3.micro".data = true := by decide
example : dbInstanceClassTest "t3.micro".data = false := by decide
example : engineVersionTest "8.0.35".data = true := by decide
example : engineVersionTest "8.0".data = true := by decide
example : engineVersionTest "8".data = false := by decide
example : cidrRegexTest "10.1.0.0/16".data = true := by decide
example : cidrRegexTest "10.1.0.0".data = false := by decide
example : jsSplit '/' "10.1.0.0/16".data = ["10.1.0.0".data, "16".data] := by decide
example : jsSplit '.' "10.1.0.0".data = ["10".data, "1".data, "0".data, "0".data] := by decide

/-- Decidable equality for `Except`, used to evaluate validation results on
concrete inputs. -/
instance {ε α : Type} [DecidableEq ε] [DecidableEq α] : DecidableEq (Except ε α) :=
  fun x y =>
    match x, y with
    | .ok a, .ok b =>
      if h : a = b then .isTrue (congrArg Except.ok h)
      else .isFalse (fun hh => h (Except.ok.inj hh))
    | .error e, .error f =>
      if h : e = f then .isTrue (congrArg Except.error h)
      else .isFalse (fun hh => h (Except.error.inj hh))
    | .ok _, .error _ => .isFalse (fun hh => Except.noConfusion hh)
    | .error _, .ok _ => .isFalse (fun hh => Except.noConfusion hh)

/-! ### Data model (`cdk/config/types.ts`) -/

/-- `DatabaseConfig` of `types.ts`.  `allocatedStorage` and
`backupRetentionPeriod` are JavaScript numbers used only in integer
comparisons, modelled by `Int`. -/
structure DatabaseConfig where
  instanceClass : String
  allocatedStorage : Int
  multiAz : Bool
  backupRetentionPeriod : Int
  engineVersion : Option String
  encrypted : Option Bool
deriving DecidableEq

/-- The `instanceTypes` record of `RegionConfig`. -/
structure InstanceTypes where
  iot : String
  payment : String
deriving DecidableEq

/-- The `databaseConfig` record of `RegionConfig`. -/
structure RegionDatabaseConfig where
  iot : DatabaseConfig
  payment : DatabaseConfig
deriving DecidableEq

/-- `RegionConfig` of `types.ts`. -/
structure RegionConfig where
  regionName : String
  cidrBlock : String
  availabilityZones : List String
  deployIoT : Bool
  deployPayment : Bool
  deployDemo : Bool
  instanceTypes : InstanceTypes
  databaseConfig : RegionDatabaseConfig
deriving DecidableEq

/-- The `stackNaming` record of `EnvironmentConfig`; `pfx`/`sfx` model the
source fields named after the front and back name parts. -/
structure StackNaming where
  pfx : String
  sfx : String
deriving DecidableEq

/-- The `costOptimization` record of the environment settings. -/
structure CostOptimization where
  useSpotInstances : Bool
  enableAutoScaling : Bool
deriving DecidableEq

/-- The `settings` record of `EnvironmentConfig`. -/
structure EnvironmentSettings where
  enableCdkNag : Bool
  enableDetailedMonitoring : Bool
  costOptimization : CostOptimization
deriving DecidableEq

/-- `EnvironmentConfig` of `types.ts`.  The `tags` object is modelled as an
association list. -/
structure EnvironmentConfig where
  regions : List RegionConfig
  stackNaming : StackNaming
  tags : List (String × String)
  settings : EnvironmentSettings
deriving DecidableEq

/-- The `crossRegionSettings` record of `DeploymentConfig`. -/
structure CrossRegionSettings where
  enableTransitGateway : Bool
  paymentApiEndpoint : String
  primaryRegion : String
deriving DecidableEq

/-- `DeploymentConfig` of `types.ts`.  The `environments` object is modelled
as an association list in key-insertion order (JavaScript objects enumerate
string keys in insertion order, and object keys are unique). -/
structure DeploymentConfig where
  environments : List (String × EnvironmentConfig)
  crossRegionSettings : CrossRegionSettings
deriving DecidableEq

/-- Lookup `cfg.environments[name]`. -/
def lookupEnv (cfg : DeploymentConfig) (name : String) : Option EnvironmentConfig :=
  (cfg.environments.find? (fun e => e.1 == name)).map (·.2)

/-! ### Classified errors

Each constructor corresponds to one `throw new Error(...)` site of
`ConfigurationManager`, carrying the identifiers interpolated into the
source's message. -/

inductive ConfigError where
  /-- "No environment configurations found" -/
  | noEnvironments
  /-- "Current environment '<env>' not found in configuration" -/
  | currentEnvironmentNotFound (env : String)
  /-- "Primary region must be specified in cross-region settings" -/
  | primaryRegionNotSpecified
  /-- "Payment API endpoint must be specified in cross-region settings" -/
  | paymentEndpointNotSpecified
  /-- "Primary region '<region>' not found in any environment configuration" -/
  | primaryRegionNotFound (region : String)
  /-- "No regions configured for environment: <env>" -/
  | noRegionsConfigured (env : String)
  /-- "Overlapping CIDR blocks detected in region configuration" -/
  | overlappingCidrBlocks
  /-- "Invalid CIDR block format: <cidr>" -/
  | invalidCidrFormat (cidr : String)
  /-- "Invalid region name format: <region>" -/
  | invalidRegionNameFormat (region : String)
  /-- "Region <region> must have at least 2 availability zones" -/
  | insufficientAvailabilityZones (region : String)
  /-- "Availability zone <az> does not match region <region>" -/
  | availabilityZoneMismatch (az : String) (region : String)
  /-- "Invalid IoT instance type format in region <region>: <ty>" -/
  | invalidIotInstanceType (region : String) (ty : String)
  /-- "Invalid Payment instance type format in region <region>: <ty>" -/
  | invalidPaymentInstanceType (region : String) (ty : String)
  /-- "Invalid <kind> database instance class in region <region>: <cls>" -/
  | invalidDbInstanceClass (kind : String) (region : String) (cls : String)
  /-- "<kind> database allocated storage must be between 20 and 65536 GB in region <region>" -/
  | allocatedStorageOutOfRange (kind : String) (region : String)
  /-- "<kind> database backup retention period must be between 0 and 35 days in region <region>" -/
  | backupRetentionOutOfRange (kind : String) (region : String)
  /-- "Invalid <kind> database engine version format in region <region>: <v>" -/
  | invalidEngineVersion (kind : String) (region : String) (v : String)
  /-- "Primary region '<region>' must have payment deployment enabled" -/
  | primaryRegionPaymentDisabled (region : String)
deriving DecidableEq

/-- The error taxonomy of spec section 7, as a classification of the concrete
errors. -/
inductive ErrorKind where
  | configNotFound
  | invalidField
  | cidrOverlap
  | policyViolation
deriving DecidableEq

/-- Classification of each concrete error into the spec's taxonomy. -/
def ConfigError.kind : ConfigError → ErrorKind
  | .noEnvironments => .configNotFound
  | .currentEnvironmentNotFound _ => .configNotFound
  | .primaryRegionNotSpecified => .policyViolation
  | .paymentEndpointNotSpecified => .policyViolation
  | .primaryRegionNotFound _ => .policyViolation
  | .noRegionsConfigured _ => .policyViolation
  | .overlappingCidrBlocks => .cidrOverlap
  | .invalidCidrFormat _ => .invalidField
  | .invalidRegionNameFormat _ => .invalidField
  | .insufficientAvailabilityZones _ => .invalidField
  | .availabilityZoneMismatch _ _ => .invalidField
  | .invalidIotInstanceType _ _ => .invalidField
  | .invalidPaymentInstanceType _ _ => .invalidField
  | .invalidDbInstanceClass _ _ _ => .invalidField
  | .allocatedStorageOutOfRange _ _ => .invalidField
  | .backupRetentionOutOfRange _ _ => .invalidField
  | .invalidEngineVersion _ _ _ => .invalidField
  | .primaryRegionPaymentDisabled _ => .policyViolation

/-! ### `ConfigurationManager` validation (`config-manager.ts`)

`throw` is modelled by `Except.error`; a JavaScript `forEach` body that can
throw is modelled by scanning for the first failing element. -/

/-- `ConfigurationManager.validateEnvironments`.  JavaScript truthiness of
`!this.deploymentConfig.environments` cannot arise for a materialised tree;
the emptiness test is the `Object.keys(...).length === 0` branch. -/
def validateEnvironments (cfg : DeploymentConfig) (currentEnvironment : String) :
    Except ConfigError Unit :=
  if cfg.environments.isEmpty then .error .noEnvironments
  else if (lookupEnv cfg currentEnvironment).isNone then
    .error (.currentEnvironmentNotFound currentEnvironment)
  else .ok ()

/-- `ConfigurationManager.validateCrossRegionSettings`.  `!settings.primaryRegion`
and `!settings.paymentApiEndpoint` are JavaScript falsiness tests; for string
fields of a materialised tree they hold exactly for the empty string. -/
def validateCrossRegionSettings (cfg : DeploymentConfig) : Except ConfigError Unit :=
  if cfg.crossRegionSettings.primaryRegion = "" then .error .primaryRegionNotSpecified
  else if cfg.crossRegionSettings.paymentApiEndpoint = "" then
    .error .paymentEndpointNotSpecified
  else if cfg.environments.any
      (fun e => e.2.regions.any
        (fun r => r.regionName == cfg.crossRegionSettings.primaryRegion)) then
    .ok ()
  else .error (.primaryRegionNotFound cfg.crossRegionSettings.primaryRegion)

/-- `ConfigurationManager.validateCidrBlocks`.  The duplicate test compares
`cidrBlocks.length` with the size of `new Set(cidrBlocks)`, i.e. with the
number of distinct strings; the format check then throws at the first block
not matching `^(\d{1,3}\.){3}\d{1,3}\/\d{1,2}$`. -/
def validateCidrBlocks (regions : List RegionConfig) : Except ConfigError Unit :=
  if (regions.map (·.cidrBlock)).length ≠ (regions.map (·.cidrBlock)).dedup.length then
    .error .overlappingCidrBlocks
  else
    match (regions.map (·.cidrBlock)).find? (fun cidr => !(cidrRegexTest cidr.data)) with
    | some cidr => .error (.invalidCidrFormat cidr)
    | none => .ok ()

/-- `ConfigurationManager.validateInstanceTypes`. -/
def validateInstanceTypes (instanceTypes : InstanceTypes) (regionName : String) :
    Except ConfigError Unit :=
  if !(instanceTypeTest instanceTypes.iot.data) then
    .error (.invalidIotInstanceType regionName instanceTypes.iot)
  else if !(instanceTypeTest instanceTypes.payment.data) then
    .error (.invalidPaymentInstanceType regionName instanceTypes.payment)
  else .ok ()

/-- `ConfigurationManager.validateDatabaseConfig`.  The engine-version check is
guarded by the truthiness of `dbConfig.engineVersion`, so an absent version or
the (falsy) empty string skips it. -/
def validateDatabaseConfig (dbConfig : DatabaseConfig) (kind : String)
    (regionName : String) : Except ConfigError Unit :=
  if !(dbInstanceClassTest dbConfig.instanceClass.data) then
    .error (.invalidDbInstanceClass kind regionName dbConfig.instanceClass)
  else if dbConfig.allocatedStorage < 20 ∨ 65536 < dbConfig.allocatedStorage then
    .error (.allocatedStorageOutOfRange kind regionName)
  else if dbConfig.backupRetentionPeriod < 0 ∨ 35 < dbConfig.backupRetentionPeriod then
    .error (.backupRetentionOutOfRange kind regionName)
  else
    match dbConfig.engineVersion with
    | some v =>
      if v ≠ "" ∧ !(engineVersionTest v.data) then
        .error (.invalidEngineVersion kind regionName v)
      else .ok ()
    | none => .ok ()

/-- `ConfigurationManager.validateRegionConfiguration`.  The availability-zone
loop throws at the first zone that does not start with the region name; note
that the manager checks only this `startsWith` condition (and the minimum
count), not the zone regex of `ConfigurationValidator.validateAvailabilityZone`. -/
def validateRegionConfiguration (region : RegionConfig) : Except ConfigError Unit :=
  if !(regionNameTest region.regionName.data) then
    .error (.invalidRegionNameFormat region.regionName)
  else if region.availabilityZones.length < 2 then
    .error (.insufficientAvailabilityZones region.regionName)
  else
    match region.availabilityZones.find? (fun az => !(jsStartsWith az region.regionName)) with
    | some az => .error (.availabilityZoneMismatch az region.regionName)
    | none =>
      match validateInstanceTypes region.instanceTypes region.regionName with
      | .error e => .error e
      | .ok () =>
        match validateDatabaseConfig region.databaseConfig.iot "IoT" region.regionName with
        | .error e => .error e
        | .ok () =>
          validateDatabaseConfig region.databaseConfig.payment "Payment" region.regionName

/-- The `envConfig.regions.forEach(region => validateRegionConfiguration(region))`
loop: the first failing region aborts with its error. -/
def validateRegionList : List RegionConfig → Except ConfigError Unit
  | [] => .ok ()
  | region :: rest =>
    match validateRegionConfiguration region with
    | .error e => .error e
    | .ok () => validateRegionList rest

/-- `ConfigurationManager.validateEnvironmentConfiguration` for one
environment, given the bundle's `crossRegionSettings.primaryRegion`.  The
payment policy check uses `envConfig.regions.find(...)`, i.e. only the first
region whose name equals the primary region is examined. -/
def validateEnvironmentConfiguration (primaryRegion : String) (environment : String)
    (envConfig : EnvironmentConfig) : Except ConfigError Unit :=
  if envConfig.regions.isEmpty then .error (.noRegionsConfigured environment)
  else
    match validateCidrBlocks envConfig.regions with
    | .error e => .error e
    | .ok () =>
      match validateRegionList envConfig.regions with
      | .error e => .error e
      | .ok () =>
        match envConfig.regions.find? (fun r => r.regionName == primaryRegion) with
        | some primaryRegionInEnv =>
          if primaryRegionInEnv.deployPayment then .ok ()
          else .error (.primaryRegionPaymentDisabled primaryRegion)
        | none => .ok ()

/-- The `Object.keys(this.deploymentConfig.environments).forEach(...)` loop of
`validateConfiguration`: environments are validated in key order, the first
failure aborts. -/
def validateEnvironmentList (primaryRegion : String) :
    List (String × EnvironmentConfig) → Except ConfigError Unit
  | [] => .ok ()
  | (name, envConfig) :: rest =>
    match validateEnvironmentConfiguration primaryRegion name envConfig with
    | .error e => .error e
    | .ok () => validateEnvironmentList primaryRegion rest

/-- `ConfigurationManager.validateConfiguration`, run by the constructor:
constructing a `ConfigurationManager` (resolution) succeeds exactly when this
returns `.ok ()`. -/
def validateConfiguration (cfg : DeploymentConfig) (currentEnvironment : String) :
    Except ConfigError Unit :=
  match validateEnvironments cfg currentEnvironment with
  | .error e => .error e
  | .ok () =>
    match validateCrossRegionSettings cfg with
    | .error e => .error e
    | .ok () => validateEnvironmentList cfg.crossRegionSettings.primaryRegion cfg.environments

/-- `ConfigurationManager.getPrimaryRegion`. -/
def getPrimaryRegion (cfg : DeploymentConfig) : String :=
  cfg.crossRegionSettings.primaryRegion

/-- `ConfigurationManager.shouldEnableTransitGateway` (the spec's
`shouldAttachBackbone`). -/
def shouldEnableTransitGateway (cfg : DeploymentConfig) (regionName : String) : Bool :=
  cfg.crossRegionSettings.enableTransitGateway && (regionName == getPrimaryRegion cfg)

/-! ### `ConfigurationValidator` primitives (`config-manager.ts`) -/

/-- `ConfigurationValidator.validateCidrBlock`: regex test, then prefix-length
range check, then octet range check.  The regex guarantees the shape
`ip/prefixStr`, so the `split` destructuring and the `Number`/`parseInt`
conversions are total at this point; the fall-through arm is unreachable under
the guard. -/
def validateCidrBlock (cidr : String) : Bool :=
  if cidrRegexTest cidr.data then
    match jsSplit '/' cidr.data with
    | ip :: prefixStr :: _ =>
      if digitsToNat prefixStr < 8 ∨ 28 < digitsToNat prefixStr then false
      else
        ((jsSplit '.' ip).map digitsToNat).all
          (fun octet => decide (0 ≤ octet) && decide (octet ≤ 255))
    | _ => false
  else false

/-- `ConfigurationValidator.cidrBlocksOverlap`: equal strings overlap, else the
first two dot-separated components of the address parts are joined with a dot
and compared as strings (the source's documented simplification). -/
def cidrBlocksOverlap (cidr1 cidr2 : String) : Bool :=
  if cidr1 = cidr2 then true
  else
    List.intercalate ['.'] ((jsSplit '.' ((jsSplit '/' cidr1.data).headD [])).take 2) ==
      List.intercalate ['.'] ((jsSplit '.' ((jsSplit '/' cidr2.data).headD [])).take 2)

/-- `ConfigurationValidator.validateAvailabilityZone`. -/
def validateAvailabilityZone (az : String) (regionName : String) : Bool :=
  jsStartsWith az regionName && azPatternTest az.data

example : validateCidrBlock "10.1.0.0/16" = true := by decide
example : validateCidrBlock "10.1.0.0/29" = false := by decide
example : validateCidrBlock "256.1.0.0/16" = false := by decide
example : validateCidrBlock "10.1.0.0/7" = false := by decide
example : validateCidrBlock "invalid" = false := by decide
example : cidrBlocksOverlap "10.1.0.0/16" "10.1.5.0/24" = true := by decide
example : cidrBlocksOverlap "10.1.0.0/16" "10.2.0.0/16" = false := by decide
example : validateAvailabilityZone "us-east-1a" "us-east-1" = true := by decide
example : validateAvailabilityZone "us-west-1a" "us-east-1" = false := by decide

/-! ### `NetworkStack` security groups (`cdk/stacks/network-stack.ts`)

The constructor's security-group creation and `configureSecurityGroupRules`
are effect-free descriptions of resources; they are embedded as the data they
construct, with ingress rules listed in `addIngressRule` call order. -/

/-- A source reference of an ingress rule: `ec2.Peer.anyIpv4()` or one of the
three tier security groups. -/
inductive PeerRef where
  | anyIpv4
  | webTier
  | appTier
  | databaseTier
deriving DecidableEq

/-- A port specification: `ec2.Port.tcp(n)` or `ec2.Port.allTraffic()`. -/
inductive PortSpec where
  | tcp (port : Nat)
  | allTraffic
deriving DecidableEq

/-- One `addIngressRule(peer, port, description)` call. -/
structure IngressRule where
  peer : PeerRef
  port : PortSpec
  description : String
deriving DecidableEq

/-- One `new ec2.SecurityGroup(...)` together with the ingress rules later
added to it. -/
structure SecurityGroupModel where
  description : String
  allowAllOutbound : Bool
  ingress : List IngressRule
deriving DecidableEq

/-- `NetworkStackProps` of `types.ts` (the fields the network stack consumes;
the optional `enableTransitGateway` defaults to the falsy `undefined`,
modelled as `false`). -/
structure NetworkStackProps where
  region : String
  cidrBlock : String
  enableTransitGateway : Bool
  environment : String
  tags : List (String × String)
deriving DecidableEq

/-- The three tier security groups of one `NetworkStack`. -/
structure SecurityGroupsModel where
  web : SecurityGroupModel
  app : SecurityGroupModel
  database : SecurityGroupModel
deriving DecidableEq

/-- The derived network plan of one region that the claims examine: the three
security groups and whether a transit gateway is constructed. -/
structure NetworkStackModel where
  securityGroups : SecurityGroupsModel
  transitGateway : Bool
deriving DecidableEq

/-- The `NetworkStack` constructor's security-group construction followed by
`configureSecurityGroupRules`, as data.  Creation parameters
(`allowAllOutbound`) come from the three `new ec2.SecurityGroup` calls; the
ingress lists follow the `addIngressRule` call order of
`configureSecurityGroupRules` (the app tier receives its two IoT rules last). -/
def buildNetworkStack (props : NetworkStackProps) : NetworkStackModel :=
  { securityGroups :=
      { web :=
          { description := "Security group for web tier (ALB, public-facing services)"
            allowAllOutbound := true
            ingress :=
              [ { peer := .anyIpv4, port := .tcp 80,
                  description := "Allow HTTP traffic from internet" },
                { peer := .anyIpv4, port := .tcp 443,
                  description := "Allow HTTPS traffic from internet" } ] }
        app :=
          { description := "Security group for application tier (EC2, ECS)"
            allowAllOutbound := true
            ingress :=
              [ { peer := .webTier, port := .tcp 8080,
                  description := "Allow HTTP traffic from web tier" },
                { peer := .webTier, port := .tcp 8443,
                  description := "Allow HTTPS traffic from web tier" },
                { peer := .appTier, port := .allTraffic,
                  description := "Allow communication within app tier" },
                { peer := .anyIpv4, port := .tcp 8883,
                  description := "Allow MQTT over TLS for IoT devices" },
                { peer := .anyIpv4, port := .tcp 443,
                  description := "Allow HTTPS for IoT device management" } ] }
        database :=
          { description := "Security group for database tier (RDS, ElastiCache)"
            allowAllOutbound := false
            ingress :=
              [ { peer := .appTier, port := .tcp 3306,
                  description := "Allow MySQL access from app tier" },
                { peer := .appTier, port := .tcp 6379,
                  description := "Allow Redis access from app tier" },
                { peer := .databaseTier, port := .allTraffic,
                  description := "Allow communication within database tier" } ] } }
    transitGateway := props.enableTransitGateway }

/-! ### Concrete configurations

Building blocks mirror `cdk/config/regions.ts`; the bundles below are the
concrete inputs used by witnesses and counterexamples. -/

/-- The IoT database configuration of `DEFAULT_REGIONS`. -/
def dbIot : DatabaseConfig :=
  { instanceClass := "db.t3.micro"
    allocatedStorage := 20
    multiAz := true
    backupRetentionPeriod := 7
    engineVersion := some "8.0.35"
    encrypted := some true }

/-- The payment database configuration of `DEFAULT_REGIONS`. -/
def dbPayment : DatabaseConfig :=
  { instanceClass := "db.t3.small"
    allocatedStorage := 100
    multiAz := true
    backupRetentionPeriod := 30
    engineVersion := some "8.0.35"
    encrypted := some true }

/-- `DEFAULT_REGIONS['us-east-1']`. -/
def usEast1 : RegionConfig :=
  { regionName := "us-east-1"
    cidrBlock := "10.1.0.0/16"
    availabilityZones := ["us-east-1a", "us-east-1b"]
    deployIoT := true
    deployPayment := true
    deployDemo := true
    instanceTypes := { iot := "t3.medium", payment := "t3.large" }
    databaseConfig := { iot := dbIot, payment := dbPayment } }

/-- `DEFAULT_REGIONS['eu-central-1']`. -/
def euCentral1 : RegionConfig :=
  { regionName := "eu-central-1"
    cidrBlock := "10.3.0.0/16"
    availabilityZones := ["eu-central-1a", "eu-central-1b"]
    deployIoT := true
    deployPayment := false
    deployDemo := false
    instanceTypes := { iot := "t3.medium", payment := "t3.large" }
    databaseConfig := { iot := dbIot, payment := dbPayment } }

/-- Environment settings used by the concrete bundles. -/
def plainSettings : EnvironmentSettings :=
  { enableCdkNag := true
    enableDetailedMonitoring := false
    costOptimization := { useSpotInstances := true, enableAutoScaling := true } }

/-- An environment descriptor around a given region list. -/
def mkEnv (regions : List RegionConfig) : EnvironmentConfig :=
  { regions := regions
    stackNaming := { pfx := "MultiRegionDemo", sfx := "Dev" }
    tags := [("Environment", "Development")]
    settings := plainSettings }

/-- Cross-region settings with `us-east-1` primary and the transit gateway
enabled, as in `DEFAULT_DEPLOYMENT_CONFIG`. -/
def crossUsEast1 : CrossRegionSettings :=
  { enableTransitGateway := true
    paymentApiEndpoint := "https://payment-api.us-east-1.amazonaws.com"
    primaryRegion := "us-east-1" }

/-- A well-formed single-environment bundle (the development environment of
`DEFAULT_DEPLOYMENT_CONFIG`). -/
def cfgValid : DeploymentConfig :=
  { environments := [("development", mkEnv [usEast1])]
    crossRegionSettings := crossUsEast1 }

/-- Bundle for claim C1: the declared environment "production" contains no
region named `us-east-1`, the configured primary region, while "development"
does. -/
def cfgPrimaryNotEverywhere : DeploymentConfig :=
  { environments :=
      [("development", mkEnv [usEast1]), ("production", mkEnv [euCentral1])]
    crossRegionSettings := crossUsEast1 }

/-- Bundle whose primary region `eu-west-1` appears in no environment. -/
def cfgPrimaryNowhere : DeploymentConfig :=
  { environments := [("development", mkEnv [usEast1])]
    crossRegionSettings :=
      { enableTransitGateway := true
        paymentApiEndpoint := "https://payment-api.us-east-1.amazonaws.com"
        primaryRegion := "eu-west-1" } }

/-- Bundle for claim C2: two regions of one environment declare the
network-equal but textually distinct blocks `10.1.0.0/16` and `10.1.5.0/24`. -/
def cfgOverlapNotEqual : DeploymentConfig :=
  { environments :=
      [("development", mkEnv [usEast1, { euCentral1 with cidrBlock := "10.1.5.0/24" }])]
    crossRegionSettings := crossUsEast1 }

/-- Bundle for claim C3: two regions share the primary region's name; the
first has payment deployment enabled, the second does not. -/
def cfgShadowedPrimary : DeploymentConfig :=
  { environments :=
      [("development",
        mkEnv [usEast1,
               { usEast1 with cidrBlock := "10.2.0.0/16", deployPayment := false }])]
    crossRegionSettings := crossUsEast1 }

/-- Bundle for claim C4: two regions of one environment share the region name
`us-east-1` (with distinct CIDR blocks). -/
def cfgDuplicateNames : DeploymentConfig :=
  { environments :=
      [("development", mkEnv [usEast1, { usEast1 with cidrBlock := "10.2.0.0/16" }])]
    crossRegionSettings := crossUsEast1 }

/-- Region for claim C5: the second availability zone `us-east-1aa` starts
with the region name but does not match the zone regex. -/
def usEast1OddZone : RegionConfig :=
  { usEast1 with availabilityZones := ["us-east-1a", "us-east-1aa"] }

/-- Region whose primary payment deployment is disabled, for the C3 witness. -/
def usEast1NoPayment : RegionConfig :=
  { usEast1 with deployPayment := false }

example : validateConfiguration cfgValid "development" = .ok () := by decide
example : validateConfiguration cfgPrimaryNotEverywhere "development" = .ok () := by decide
example : validateConfiguration cfgOverlapNotEqual "development" = .ok () := by decide
example : validateConfiguration cfgShadowedPrimary "development" = .ok () := by decide
example : validateConfiguration cfgDuplicateNames "development" = .ok () := by decide
example : validateRegionConfiguration usEast1OddZone = .ok () := by decide
example : validateConfiguration cfgPrimaryNowhere "development" =
    .error (.primaryRegionNotFound "eu-west-1") := by decide

/-! ### Lemmas about the scanning primitives -/

theorem chompWhile_append (p : Char → Bool) (cs : List Char) :
    (chompWhile p cs).1 ++ (chompWhile p cs).2 = cs := by
  induction cs with
  | nil => simp [chompWhile]
  | cons c cs ih =>
    simp only [chompWhile]
    split
    · simpa using ih
    · simp

theorem chompWhile_taken (p : Char → Bool) (cs : List Char) :
    ∀ c ∈ (chompWhile p cs).1, p c = true := by
  induction cs with
  | nil => simp [chompWhile]
  | cons c cs ih =>
    simp only [chompWhile]
    split
    · rename_i hc
      intro x hx
      rcases List.mem_cons.mp hx with h | h
      · exact h ▸ hc
      · exact ih x h
    · simp

theorem chompWhile_rest (p : Char → Bool) (cs : List Char) :
    ∀ c, (chompWhile p cs).2.head? = some c → p c = false := by
  induction cs with
  | nil => simp [chompWhile]
  | cons c cs ih =>
    simp only [chompWhile]
    split
    · exact ih
    · rename_i hc
      intro x hx
      simp only [List.head?_cons, Option.some.injEq] at hx
      subst hx
      exact Bool.eq_false_iff.mpr hc

theorem chompWhile_complete (p : Char → Bool) (ds rest : List Char)
    (hds : ∀ c ∈ ds, p c = true)
    (hrest : ∀ c, rest.head? = some c → p c = false) :
    chompWhile p (ds ++ rest) = (ds, rest) := by
  induction ds with
  | nil =>
    cases rest with
    | nil => simp [chompWhile]
    | cons r rs =>
      have hr := hrest r (by simp)
      simp [chompWhile, hr]
  | cons d ds ih =>
    have hd : p d = true := hds d (by simp)
    have ih' := ih (fun c hc => hds c (by simp [hc]))
    simp [chompWhile, hd, ih']

/-- `chompWhile` consumes a list entirely when every element satisfies the
predicate. -/
theorem chompWhile_all (p : Char → Bool) (ds : List Char)
    (hds : ∀ c ∈ ds, p c = true) : chompWhile p ds = (ds, []) := by
  have := chompWhile_complete p ds [] hds (by simp)
  simpa using this

theorem jsSplit_no_sep (sep : Char) (l : List Char) (h : ∀ c ∈ l, c ≠ sep) :
    jsSplit sep l = [l] := by
  induction l with
  | nil => rfl
  | cons c cs ih =>
    have hc : c ≠ sep := h c (by simp)
    have ih' := ih (fun x hx => h x (by simp [hx]))
    simp [jsSplit, hc, ih']

theorem jsSplit_append (sep : Char) (l r : List Char) (h : ∀ c ∈ l, c ≠ sep) :
    jsSplit sep (l ++ sep :: r) = l :: jsSplit sep r := by
  induction l with
  | nil => simp [jsSplit]
  | cons c cs ih =>
    have hc : c ≠ sep := h c (by simp)
    have ih' := ih (fun x hx => h x (by simp [hx]))
    simp only [List.cons_append, jsSplit, if_neg hc, List.append_eq, ih']

theorem digit_ne_dot {c : Char} (h : c.isDigit = true) : c ≠ '.' := by
  intro he
  subst he
  exact absurd h (by decide)

theorem digit_ne_slash {c : Char} (h : c.isDigit = true) : c ≠ '/' := by
  intro he
  subst he
  exact absurd h (by decide)

theorem append_sep_inj {sep : Char} {x1 x2 r1 r2 : List Char}
    (hx1 : ∀ c ∈ x1, c ≠ sep) (hx2 : ∀ c ∈ x2, c ≠ sep)
    (h : x1 ++ sep :: r1 = x2 ++ sep :: r2) : x1 = x2 ∧ r1 = r2 := by
  induction x1 generalizing x2 with
  | nil =>
    cases x2 with
    | nil => simpa using h
    | cons y ys =>
      exfalso
      have hy : y ≠ sep := hx2 y (by simp)
      simp only [List.nil_append, List.cons_append, List.cons.injEq] at h
      exact hy h.1.symm
  | cons x xs ih =>
    cases x2 with
    | nil =>
      exfalso
      have hx : x ≠ sep := hx1 x (by simp)
      simp only [List.cons_append, List.nil_append, List.cons.injEq] at h
      exact hx h.1
    | cons y ys =>
      simp only [List.cons_append, List.cons.injEq] at h
      obtain ⟨hxy, hrest⟩ := h
      have := ih (fun c hc => hx1 c (by simp [hc]))
        (fun c hc => hx2 c (by simp [hc])) hrest
      exact ⟨by simp [hxy, this.1], this.2⟩

theorem intercalate_pair (a b : List Char) :
    List.intercalate ['.'] [a, b] = a ++ '.' :: b := by
  simp [List.intercalate, List.intersperse]

/-! ### Soundness and completeness of the CIDR scanner -/

/-- The shape of one octet substring of the CIDR regex: one to three decimal
digits. -/
def octetShape (o : List Char) : Prop :=
  (∀ c ∈ o, c.isDigit = true) ∧ 1 ≤ o.length ∧ o.length ≤ 3

instance (o : List Char) : Decidable (octetShape o) := by
  unfold octetShape
  infer_instance

theorem head_cons_not_digit (c0 : Char) (h : c0.isDigit = false) (rest : List Char) :
    ∀ c, (c0 :: rest).head? = some c → c.isDigit = false := by
  intro c hc
  simp only [List.head?_cons, Option.some.injEq] at hc
  exact hc ▸ h

theorem scanOctet_sound {cs o rest : List Char} (h : scanOctet cs = some (o, rest)) :
    cs = o ++ rest ∧ octetShape o ∧
      (∀ c, rest.head? = some c → c.isDigit = false) := by
  unfold scanOctet at h
  split at h
  · rename_i hlen
    have hpair := Option.some.inj h
    have h1 : (chompWhile Char.isDigit cs).1 = o := congrArg Prod.fst hpair
    have h2 : (chompWhile Char.isDigit cs).2 = rest := congrArg Prod.snd hpair
    refine ⟨?_, ⟨?_, ?_, ?_⟩, ?_⟩
    · rw [← h1, ← h2, chompWhile_append]
    · rw [← h1]; exact chompWhile_taken _ cs
    · rw [← h1]; exact hlen.1
    · rw [← h1]; exact hlen.2
    · rw [← h2]; exact chompWhile_rest _ cs
  · exact absurd h (by simp)

theorem scanOctet_complete {o rest : List Char} (ho : octetShape o)
    (hrest : ∀ c, rest.head? = some c → c.isDigit = false) :
    scanOctet (o ++ rest) = some (o, rest) := by
  unfold scanOctet
  rw [chompWhile_complete Char.isDigit o rest ho.1 hrest]
  simp [ho.2.1, ho.2.2]

theorem scanOctetDot_sound {cs o rest : List Char}
    (h : scanOctetDot cs = some (o, rest)) :
    cs = o ++ '.' :: rest ∧ octetShape o := by
  unfold scanOctetDot at h
  split at h
  · rename_i o' c r heq
    split at h
    · rename_i hc
      have hpair := Option.some.inj h
      have h1 : o' = o := congrArg Prod.fst hpair
      have h2 : r = rest := congrArg Prod.snd hpair
      subst h1; subst h2; subst hc
      obtain ⟨hcs, hshape, _⟩ := scanOctet_sound heq
      exact ⟨hcs, hshape⟩
    · exact absurd h (by simp)
  · exact absurd h (by simp)

theorem scanOctetDot_complete {o rest : List Char} (ho : octetShape o) :
    scanOctetDot (o ++ '.' :: rest) = some (o, rest) := by
  unfold scanOctetDot
  rw [scanOctet_complete ho (head_cons_not_digit '.' (by decide) rest)]
  rfl

theorem scanCidr_sound {cs o1 o2 o3 o4 p : List Char}
    (h : scanCidr cs = some (o1, o2, o3, o4, p)) :
    cs = o1 ++ '.' :: (o2 ++ '.' :: (o3 ++ '.' :: (o4 ++ '/' :: p))) ∧
      octetShape o1 ∧ octetShape o2 ∧ octetShape o3 ∧ octetShape o4 ∧
      (∀ c ∈ p, c.isDigit = true) ∧ 1 ≤ p.length ∧ p.length ≤ 2 := by
  unfold scanCidr at h
  split at h
  · exact absurd h (by simp)
  · rename_i o1' r1 heq1
    split at h
    · exact absurd h (by simp)
    · rename_i o2' r2 heq2
      split at h
      · exact absurd h (by simp)
      · rename_i o3' r3 heq3
        split at h
        · exact absurd h (by simp)
        · rename_i o4' r4 heq4
          split at h
          · rename_i r5
            split at h
            · rename_i hcond
              have hpair := Option.some.inj h
              obtain ⟨e1, e2, e3, e4, e5⟩ : o1' = o1 ∧ o2' = o2 ∧ o3' = o3 ∧
                  o4' = o4 ∧ (chompWhile Char.isDigit r5).1 = p := by
                refine ⟨congrArg (·.1) hpair, congrArg (·.2.1) hpair,
                  congrArg (·.2.2.1) hpair, congrArg (·.2.2.2.1) hpair,
                  congrArg (·.2.2.2.2) hpair⟩
              subst e1; subst e2; subst e3; subst e4
              obtain ⟨hc1, hs1⟩ := scanOctetDot_sound heq1
              obtain ⟨hc2, hs2⟩ := scanOctetDot_sound heq2
              obtain ⟨hc3, hs3⟩ := scanOctetDot_sound heq3
              obtain ⟨hc4, hs4, _⟩ := scanOctet_sound heq4
              have hr5 : r5 = p := by
                have := chompWhile_append Char.isDigit r5
                rw [e5, hcond.2.2] at this
                simpa using this.symm
              refine ⟨?_, hs1, hs2, hs3, hs4, ?_, ?_, ?_⟩
              · rw [hc1, hc2, hc3, hc4, hr5]
              · rw [← e5]; exact chompWhile_taken _ r5
              · rw [← e5]; exact hcond.1
              · rw [← e5]; exact hcond.2.1
            · exact absurd h (by simp)
          · exact absurd h (by simp)

theorem scanCidr_complete {o1 o2 o3 o4 p : List Char}
    (h1 : octetShape o1) (h2 : octetShape o2) (h3 : octetShape o3)
    (h4 : octetShape o4) (hp : ∀ c ∈ p, c.isDigit = true)
    (hp1 : 1 ≤ p.length) (hp2 : p.length ≤ 2) :
    scanCidr (o1 ++ '.' :: (o2 ++ '.' :: (o3 ++ '.' :: (o4 ++ '/' :: p)))) =
      some (o1, o2, o3, o4, p) := by
  unfold scanCidr
  simp only [scanOctetDot_complete h1, scanOctetDot_complete h2, scanOctetDot_complete h3,
    scanOctet_complete h4 (head_cons_not_digit '/' (by decide) p),
    chompWhile_all Char.isDigit p hp]
  simp [hp1, hp2]

/-! ### Well-formed CIDR strings -/

/-- A decomposition of a string into the components of the CIDR regex
`^(\d{1,3}\.){3}\d{1,3}\/(\d{1,2})$`: four octet substrings of one to three
digits and a prefix substring of one or two digits.  This is the meaning of
"well-formed CIDR string" used by the claims. -/
def isCidrShape (s : String) (o1 o2 o3 o4 p : List Char) : Prop :=
  s.data = o1 ++ '.' :: (o2 ++ '.' :: (o3 ++ '.' :: (o4 ++ '/' :: p))) ∧
  octetShape o1 ∧ octetShape o2 ∧ octetShape o3 ∧ octetShape o4 ∧
  (∀ c ∈ p, c.isDigit = true) ∧ 1 ≤ p.length ∧ p.length ≤ 2

instance (s : String) (o1 o2 o3 o4 p : List Char) :
    Decidable (isCidrShape s o1 o2 o3 o4 p) := by
  unfold isCidrShape
  infer_instance

/-- Modelled from the spec: `isValidCidr(cidr)` holds for strings matching the
dotted-quad/prefix syntax with prefix length in [8,28] and every octet in
[0,255] (octet values here are `Nat`, hence nonnegative).  This definition is
written from the spec's words and compared with the source embedding
`validateCidrBlock`. -/
def validCidrSpec (s : String) : Prop :=
  ∃ o1 o2 o3 o4 p : List Char, isCidrShape s o1 o2 o3 o4 p ∧
    8 ≤ digitsToNat p ∧ digitsToNat p ≤ 28 ∧
    digitsToNat o1 ≤ 255 ∧ digitsToNat o2 ≤ 255 ∧
    digitsToNat o3 ≤ 255 ∧ digitsToNat o4 ≤ 255

theorem cidrRegexTest_iff_shape (s : String) :
    cidrRegexTest s.data = true ↔ ∃ o1 o2 o3 o4 p, isCidrShape s o1 o2 o3 o4 p := by
  constructor
  · intro h
    unfold cidrRegexTest at h
    obtain ⟨⟨o1, o2, o3, o4, p⟩, hscan⟩ := Option.isSome_iff_exists.mp h
    obtain ⟨hdata, h1, h2, h3, h4, hp, hp1, hp2⟩ := scanCidr_sound hscan
    exact ⟨o1, o2, o3, o4, p, hdata, h1, h2, h3, h4, hp, hp1, hp2⟩
  · rintro ⟨o1, o2, o3, o4, p, hdata, h1, h2, h3, h4, hp, hp1, hp2⟩
    unfold cidrRegexTest
    rw [hdata, scanCidr_complete h1 h2 h3 h4 hp hp1 hp2]
    rfl

/-- Splitting a well-formed CIDR at the slash yields the address part and the
prefix part. -/
theorem cidrShape_split_slash {s : String} {o1 o2 o3 o4 p : List Char}
    (h : isCidrShape s o1 o2 o3 o4 p) :
    jsSplit '/' s.data = [o1 ++ '.' :: (o2 ++ '.' :: (o3 ++ '.' :: o4)), p] := by
  obtain ⟨hdata, h1, h2, h3, h4, hp, _, _⟩ := h
  have hA : s.data = (o1 ++ '.' :: (o2 ++ '.' :: (o3 ++ '.' :: o4))) ++ '/' :: p := by
    rw [hdata]
    simp [List.append_assoc]
  have hnos : ∀ c ∈ o1 ++ '.' :: (o2 ++ '.' :: (o3 ++ '.' :: o4)), c ≠ '/' := by
    intro c hc
    simp only [List.mem_append, List.mem_cons] at hc
    rcases hc with hx | hx | hx | hx | hx | hx | hx
    · exact digit_ne_slash (h1.1 c hx)
    · subst hx; decide
    · exact digit_ne_slash (h2.1 c hx)
    · subst hx; decide
    · exact digit_ne_slash (h3.1 c hx)
    · subst hx; decide
    · exact digit_ne_slash (h4.1 c hx)
  have hpns : ∀ c ∈ p, c ≠ '/' := fun c hc => digit_ne_slash (hp c hc)
  rw [hA, jsSplit_append '/' _ _ hnos, jsSplit_no_sep '/' p hpns]

/-- Splitting the address part of a well-formed CIDR at the dots yields the
four octets. -/
theorem cidrShape_split_dots {o1 o2 o3 o4 : List Char}
    (h1 : ∀ c ∈ o1, c.isDigit = true) (h2 : ∀ c ∈ o2, c.isDigit = true)
    (h3 : ∀ c ∈ o3, c.isDigit = true) (h4 : ∀ c ∈ o4, c.isDigit = true) :
    jsSplit '.' (o1 ++ '.' :: (o2 ++ '.' :: (o3 ++ '.' :: o4))) = [o1, o2, o3, o4] := by
  rw [jsSplit_append '.' _ _ (fun c hc => digit_ne_dot (h1 c hc)),
    jsSplit_append '.' _ _ (fun c hc => digit_ne_dot (h2 c hc)),
    jsSplit_append '.' _ _ (fun c hc => digit_ne_dot (h3 c hc)),
    jsSplit_no_sep '.' o4 (fun c hc => digit_ne_dot (h4 c hc))]

/-- Evaluation of `validateCidrBlock` on a well-formed CIDR: only the range
checks remain. -/
theorem validateCidrBlock_eval {s : String} {o1 o2 o3 o4 p : List Char}
    (hshape : isCidrShape s o1 o2 o3 o4 p) :
    validateCidrBlock s = true ↔
      8 ≤ digitsToNat p ∧ digitsToNat p ≤ 28 ∧
      digitsToNat o1 ≤ 255 ∧ digitsToNat o2 ≤ 255 ∧
      digitsToNat o3 ≤ 255 ∧ digitsToNat o4 ≤ 255 := by
  have hreg : cidrRegexTest s.data = true :=
    (cidrRegexTest_iff_shape s).mpr ⟨o1, o2, o3, o4, p, hshape⟩
  unfold validateCidrBlock
  rw [hreg, if_pos rfl, cidrShape_split_slash hshape]
  show (if digitsToNat p < 8 ∨ 28 < digitsToNat p then false
      else ((jsSplit '.' (o1 ++ '.' :: (o2 ++ '.' :: (o3 ++ '.' :: o4)))).map
        digitsToNat).all (fun octet => decide (0 ≤ octet) && decide (octet ≤ 255))) =
      true ↔ _
  rw [cidrShape_split_dots hshape.2.1.1 hshape.2.2.1.1 hshape.2.2.2.1.1
    hshape.2.2.2.2.1.1]
  by_cases hr : digitsToNat p < 8 ∨ 28 < digitsToNat p
  · rw [if_pos hr]
    simp only [Bool.false_eq_true, false_iff]
    intro hcon
    omega
  · rw [if_neg hr]
    simp only [List.map_cons, List.map_nil, List.all_cons, List.all_nil,
      Bool.and_eq_true, decide_eq_true_eq, Bool.and_true]
    constructor
    · intro hcon
      omega
    · intro hcon
      omega

/-- Claim C7: `validateCidrBlock` is a total boolean function, and it returns
`true` exactly for the strings satisfying the spec's description of
`isValidCidr`: dotted-quad/prefix shape, prefix length in [8,28], every octet
value in [0,255].  `validCidrSpec` is written from the spec's words,
`validateCidrBlock` from the source. -/
theorem C7_validateCidrBlock_iff_spec (s : String) :
    validateCidrBlock s = true ↔ validCidrSpec s := by
  constructor
  · intro h
    have hreg : cidrRegexTest s.data = true := by
      by_contra hneg
      rw [Bool.not_eq_true] at hneg
      unfold validateCidrBlock at h
      rw [hneg] at h
      simp at h
    obtain ⟨o1, o2, o3, o4, p, hshape⟩ := (cidrRegexTest_iff_shape s).mp hreg
    have hev := (validateCidrBlock_eval hshape).mp h
    exact ⟨o1, o2, o3, o4, p, hshape, hev.1, hev.2.1, hev.2.2.1, hev.2.2.2.1,
      hev.2.2.2.2.1, hev.2.2.2.2.2⟩
  · rintro ⟨o1, o2, o3, o4, p, hshape, h8, h28, hb1, hb2, hb3, hb4⟩
    exact (validateCidrBlock_eval hshape).mpr ⟨h8, h28, hb1, hb2, hb3, hb4⟩

/-- Witness for claim C7: the spec's three examples, evaluated through the
theorem at `10.1.0.0/16` and directly for the two rejected inputs. -/
theorem C7_witness :
    validateCidrBlock "10.1.0.0/16" = true ∧
    validateCidrBlock "10.1.0.0/29" = false ∧
    validateCidrBlock "256.1.0.0/16" = false :=
  ⟨(C7_validateCidrBlock_iff_spec "10.1.0.0/16").mpr
      ⟨['1', '0'], ['1'], ['0'], ['0'], ['1', '6'], by decide⟩,
    by decide, by decide⟩

/-- Claim C6: on well-formed CIDR strings, `cidrBlocksOverlap` returns `true`
exactly when the strings are equal or the first two octet components of their
address parts coincide. -/
theorem C6_cidrBlocksOverlap_iff (a b : String)
    (o1a o2a o3a o4a pa o1b o2b o3b o4b pb : List Char)
    (ha : isCidrShape a o1a o2a o3a o4a pa) (hb : isCidrShape b o1b o2b o3b o4b pb) :
    cidrBlocksOverlap a b = true ↔ (a = b ∨ (o1a = o1b ∧ o2a = o2b)) := by
  unfold cidrBlocksOverlap
  by_cases hab : a = b
  · rw [if_pos hab]
    simp [hab]
  · rw [if_neg hab]
    rw [cidrShape_split_slash ha, cidrShape_split_slash hb]
    simp only [List.headD_cons]
    rw [cidrShape_split_dots ha.2.1.1 ha.2.2.1.1 ha.2.2.2.1.1 ha.2.2.2.2.1.1,
      cidrShape_split_dots hb.2.1.1 hb.2.2.1.1 hb.2.2.2.1.1 hb.2.2.2.2.1.1]
    have htake : ∀ x1 x2 x3 x4 : List Char, List.take 2 [x1, x2, x3, x4] = [x1, x2] :=
      fun _ _ _ _ => rfl
    simp only [htake, intercalate_pair, beq_iff_eq]
    constructor
    · intro heq
      refine Or.inr (append_sep_inj ?_ ?_ heq)
      · exact fun c hc => digit_ne_dot (ha.2.1.1 c hc)
      · exact fun c hc => digit_ne_dot (hb.2.1.1 c hc)
    · rintro (heq | ⟨he1, he2⟩)
      · exact absurd heq hab
      · rw [he1, he2]

/-- Witness for claim C6: the spec's two examples, the overlapping pair through
the theorem and the disjoint pair by evaluation. -/
theorem C6_witness :
    cidrBlocksOverlap "10.1.0.0/16" "10.1.5.0/24" = true ∧
    cidrBlocksOverlap "10.1.0.0/16" "10.2.0.0/16" = false :=
  ⟨(C6_cidrBlocksOverlap_iff "10.1.0.0/16" "10.1.5.0/24"
      ['1', '0'] ['1'] ['0'] ['0'] ['1', '6']
      ['1', '0'] ['1'] ['5'] ['0'] ['2', '4']
      (by decide) (by decide)).mpr (Or.inr ⟨rfl, rfl⟩),
    by decide⟩

/-! ### Propagation lemmas: what an accepted input satisfies -/

theorem validateRegionList_ok {regions : List RegionConfig}
    (h : validateRegionList regions = .ok ()) :
    ∀ r ∈ regions, validateRegionConfiguration r = .ok () := by
  induction regions with
  | nil => simp
  | cons r rs ih =>
    unfold validateRegionList at h
    cases hr : validateRegionConfiguration r with
    | error e => rw [hr] at h; exact absurd h (by simp)
    | ok u =>
      cases u
      rw [hr] at h
      intro x hx
      rcases List.mem_cons.mp hx with he | he
      · subst he; exact hr
      · exact ih h x he

theorem validateEnvironmentList_ok {primary : String}
    {envs : List (String × EnvironmentConfig)}
    (h : validateEnvironmentList primary envs = .ok ()) :
    ∀ e ∈ envs, validateEnvironmentConfiguration primary e.1 e.2 = .ok () := by
  induction envs with
  | nil => simp
  | cons e es ih =>
    obtain ⟨name, envConfig⟩ := e
    unfold validateEnvironmentList at h
    cases hr : validateEnvironmentConfiguration primary name envConfig with
    | error er => rw [hr] at h; exact absurd h (by simp)
    | ok u =>
      cases u
      rw [hr] at h
      intro x hx
      rcases List.mem_cons.mp hx with he | he
      · subst he; exact hr
      · exact ih h x he

theorem validateConfiguration_ok {cfg : DeploymentConfig} {cur : String}
    (h : validateConfiguration cfg cur = .ok ()) :
    validateEnvironments cfg cur = .ok () ∧
    validateCrossRegionSettings cfg = .ok () ∧
    validateEnvironmentList cfg.crossRegionSettings.primaryRegion cfg.environments =
      .ok () := by
  unfold validateConfiguration at h
  cases h1 : validateEnvironments cfg cur with
  | error e => rw [h1] at h; exact absurd h (by simp)
  | ok u =>
    cases u
    rw [h1] at h
    cases h2 : validateCrossRegionSettings cfg with
    | error e => rw [h2] at h; exact absurd h (by simp)
    | ok u =>
      cases u
      rw [h2] at h
      exact ⟨rfl, rfl, h⟩

theorem validateCrossRegionSettings_ok {cfg : DeploymentConfig}
    (h : validateCrossRegionSettings cfg = .ok ()) :
    cfg.crossRegionSettings.primaryRegion ≠ "" ∧
    cfg.crossRegionSettings.paymentApiEndpoint ≠ "" ∧
    ∃ e ∈ cfg.environments, ∃ r ∈ e.2.regions,
      r.regionName = cfg.crossRegionSettings.primaryRegion := by
  unfold validateCrossRegionSettings at h
  split at h
  · exact absurd h (by simp)
  · rename_i hpr
    split at h
    · exact absurd h (by simp)
    · rename_i hep
      split at h
      · rename_i hany
        refine ⟨hpr, hep, ?_⟩
        obtain ⟨e, he, hre⟩ := List.any_eq_true.mp hany
        obtain ⟨r, hr, hrn⟩ := List.any_eq_true.mp hre
        exact ⟨e, he, r, hr, by simpa using hrn⟩
      · exact absurd h (by simp)

theorem validateRegionConfiguration_ok {r : RegionConfig}
    (h : validateRegionConfiguration r = .ok ()) :
    regionNameTest r.regionName.data = true ∧
    2 ≤ r.availabilityZones.length ∧
    ∀ az ∈ r.availabilityZones, jsStartsWith az r.regionName = true := by
  unfold validateRegionConfiguration at h
  split at h
  · exact absurd h (by simp)
  · rename_i hname
    split at h
    · exact absurd h (by simp)
    · rename_i hlen
      split at h
      · exact absurd h (by simp)
      · rename_i hfind
        refine ⟨by simpa using hname, by omega, ?_⟩
        intro az haz
        have := List.find?_eq_none.mp hfind az haz
        simpa using this

theorem validateCidrBlocks_overlap_iff (regions : List RegionConfig) :
    validateCidrBlocks regions = .error .overlappingCidrBlocks ↔
      ¬ (regions.map (·.cidrBlock)).Nodup := by
  unfold validateCidrBlocks
  by_cases hd : (regions.map (·.cidrBlock)).length = (regions.map (·.cidrBlock)).dedup.length
  · rw [if_neg (fun hne => hne hd)]
    constructor
    · intro h
      exfalso
      cases hf : (regions.map (·.cidrBlock)).find? (fun cidr => !(cidrRegexTest cidr.data)) with
      | some cidr => rw [hf] at h; exact ConfigError.noConfusion (Except.error.inj h)
      | none => rw [hf] at h; exact Except.noConfusion h
    · intro hnd
      exfalso
      apply hnd
      have hsub := List.dedup_sublist (regions.map (·.cidrBlock))
      have heq := hsub.eq_of_length hd.symm
      rw [← heq]
      exact List.nodup_dedup _
  · rw [if_pos hd]
    constructor
    · intro _
      intro hnd
      exact hd (by rw [List.dedup_eq_self.mpr hnd])
    · intro _
      rfl

theorem validateCidrBlocks_ok {regions : List RegionConfig}
    (h : validateCidrBlocks regions = .ok ()) :
    (regions.map (·.cidrBlock)).Nodup := by
  by_contra hnd
  have herr := (validateCidrBlocks_overlap_iff regions).mpr hnd
  rw [herr] at h
  exact Except.noConfusion h

theorem validateEnvironmentConfiguration_ok {primary env : String}
    {envConfig : EnvironmentConfig}
    (h : validateEnvironmentConfiguration primary env envConfig = .ok ()) :
    envConfig.regions ≠ [] ∧
    validateCidrBlocks envConfig.regions = .ok () ∧
    validateRegionList envConfig.regions = .ok () ∧
    ∀ r, envConfig.regions.find? (fun x => x.regionName == primary) = some r →
      r.deployPayment = true := by
  unfold validateEnvironmentConfiguration at h
  split at h
  · exact absurd h (by simp)
  · rename_i hne
    cases h1 : validateCidrBlocks envConfig.regions with
    | error e => rw [h1] at h; exact absurd h (by simp)
    | ok u =>
      cases u
      rw [h1] at h
      cases h2 : validateRegionList envConfig.regions with
      | error e => rw [h2] at h; exact absurd h (by simp)
      | ok u =>
        cases u
        rw [h2] at h
        refine ⟨by simpa [List.isEmpty_iff] using hne, rfl, rfl, ?_⟩
        intro r hr
        rw [hr] at h
        have h' : (if r.deployPayment = true then Except.ok () else
            Except.error (ConfigError.primaryRegionPaymentDisabled primary)) =
            (Except.ok () : Except ConfigError Unit) := h
        by_cases hp : r.deployPayment = true
        · exact hp
        · rw [if_neg hp] at h'
          exact absurd h' (by simp)

/-! ### The claims -/

/-- Claim C1, amended: resolution requires the primary region to appear as a
`regionName` in at least one declared environment, not in every one.  If every
declared environment lacks the primary region (and the earlier checks pass),
construction fails with the `PolicyViolation`-class error
`primaryRegionNotFound`; conversely an accepted bundle contains the primary
region in some environment. -/
theorem C1_primary_region_membership :
    (∀ (cfg : DeploymentConfig) (cur : String),
      validateConfiguration cfg cur = .ok () →
      ∃ e ∈ cfg.environments, ∃ r ∈ e.2.regions,
        r.regionName = cfg.crossRegionSettings.primaryRegion) ∧
    (∀ (cfg : DeploymentConfig) (cur : String),
      validateEnvironments cfg cur = .ok () →
      cfg.crossRegionSettings.primaryRegion ≠ "" →
      cfg.crossRegionSettings.paymentApiEndpoint ≠ "" →
      (∀ e ∈ cfg.environments, ∀ r ∈ e.2.regions,
        r.regionName ≠ cfg.crossRegionSettings.primaryRegion) →
      validateConfiguration cfg cur =
        .error (.primaryRegionNotFound cfg.crossRegionSettings.primaryRegion)) := by
  constructor
  · intro cfg cur h
    exact (validateCrossRegionSettings_ok (validateConfiguration_ok h).2.1).2.2
  · intro cfg cur henv hpr hep habs
    have hcross : validateCrossRegionSettings cfg =
        .error (.primaryRegionNotFound cfg.crossRegionSettings.primaryRegion) := by
      unfold validateCrossRegionSettings
      rw [if_neg hpr, if_neg hep, if_neg ?hany]
      case hany =>
        intro hany
        obtain ⟨e, he, hre⟩ := List.any_eq_true.mp hany
        obtain ⟨r, hr, hrn⟩ := List.any_eq_true.mp hre
        exact habs e he r hr (by simpa using hrn)
    unfold validateConfiguration
    rw [henv, hcross]

/-- Witness for claim C1: a bundle whose primary region `eu-west-1` appears in
no environment is rejected with the classified error naming it. -/
theorem C1_witness :
    validateConfiguration cfgPrimaryNowhere "development" =
      .error (.primaryRegionNotFound "eu-west-1") :=
  C1_primary_region_membership.2 cfgPrimaryNowhere "development" (by decide)
    (by decide) (by decide) (by decide)

/-- Counterexample to claim C1 as stated: in `cfgPrimaryNotEverywhere` the
declared environment "production" contains no region named the primary region
`us-east-1`, yet construction succeeds. -/
theorem C1_counterexample :
    validateConfiguration cfgPrimaryNotEverywhere "development" = .ok () ∧
    lookupEnv cfgPrimaryNotEverywhere "production" = some (mkEnv [euCentral1]) ∧
    ∀ r ∈ (mkEnv [euCentral1]).regions,
      r.regionName ≠ cfgPrimaryNotEverywhere.crossRegionSettings.primaryRegion :=
  ⟨by decide, by decide, by decide⟩

/-- Claim C2, amended: within an environment only textually identical
duplicate `cidrBlock` strings are rejected (with the `CidrOverlap`-class
error); an accepted environment has pairwise distinct `cidrBlock` strings, but
network-equal yet distinct blocks are not rejected. -/
theorem C2_cidr_duplicates_only :
    (∀ regions : List RegionConfig,
      validateCidrBlocks regions = .error .overlappingCidrBlocks ↔
        ¬ (regions.map (·.cidrBlock)).Nodup) ∧
    (∀ (cfg : DeploymentConfig) (cur : String),
      validateConfiguration cfg cur = .ok () →
      ∀ e ∈ cfg.environments, (e.2.regions.map (·.cidrBlock)).Nodup) := by
  constructor
  · exact validateCidrBlocks_overlap_iff
  · intro cfg cur h e he
    have henv := validateEnvironmentList_ok (validateConfiguration_ok h).2.2 e he
    exact validateCidrBlocks_ok (validateEnvironmentConfiguration_ok henv).2.1

/-- Witness for claim C2: two regions both declaring `10.1.0.0/16` are
rejected with the `CidrOverlap`-class error. -/
theorem C2_witness :
    validateCidrBlocks [usEast1, { euCentral1 with cidrBlock := "10.1.0.0/16" }] =
      .error .overlappingCidrBlocks :=
  (C2_cidr_duplicates_only.1 [usEast1, { euCentral1 with cidrBlock := "10.1.0.0/16" }]).mpr
    (by decide)

/-- Counterexample to claim C2 as stated: an environment with the
network-equal but distinct blocks `10.1.0.0/16` and `10.1.5.0/24` (which the
overlap predicate itself flags) is accepted by resolution. -/
theorem C2_counterexample :
    validateConfiguration cfgOverlapNotEqual "development" = .ok () ∧
    (lookupEnv cfgOverlapNotEqual "development").map
      (fun e => e.regions.map (·.cidrBlock)) = some ["10.1.0.0/16", "10.1.5.0/24"] ∧
    cidrBlocksOverlap "10.1.0.0/16" "10.1.5.0/24" = true :=
  ⟨by decide, by decide, by decide⟩

/-- Claim C3, amended: the payment policy is checked only on the first region
of each environment whose `regionName` equals the primary region (the source
uses `Array.find`).  In an accepted bundle that first matching region has
`deployPayment = true`, and an environment whose first matching region has
`deployPayment = false` (with the earlier checks passing) is rejected with the
`PolicyViolation`-class error naming the primary region. -/
theorem C3_first_primary_payment :
    (∀ (cfg : DeploymentConfig) (cur : String),
      validateConfiguration cfg cur = .ok () →
      ∀ e ∈ cfg.environments, ∀ r,
        e.2.regions.find?
          (fun x => x.regionName == cfg.crossRegionSettings.primaryRegion) = some r →
        r.deployPayment = true) ∧
    (∀ (primary env : String) (envConfig : EnvironmentConfig) (r : RegionConfig),
      envConfig.regions ≠ [] →
      validateCidrBlocks envConfig.regions = .ok () →
      validateRegionList envConfig.regions = .ok () →
      envConfig.regions.find? (fun x => x.regionName == primary) = some r →
      r.deployPayment = false →
      validateEnvironmentConfiguration primary env envConfig =
        .error (.primaryRegionPaymentDisabled primary)) := by
  constructor
  · intro cfg cur h e he r hr
    have henv := validateEnvironmentList_ok (validateConfiguration_ok h).2.2 e he
    exact (validateEnvironmentConfiguration_ok henv).2.2.2 r hr
  · intro primary env envConfig r hne hcidr hlist hfind hp
    unfold validateEnvironmentConfiguration
    rw [if_neg (by simpa [List.isEmpty_iff] using hne), hcidr, hlist, hfind]
    show (if r.deployPayment = true then Except.ok () else
      Except.error (ConfigError.primaryRegionPaymentDisabled primary)) = _
    rw [if_neg (by simp [hp])]

/-- Witness for claim C3: a single-region environment whose primary region has
payment deployment disabled is rejected with the error naming that region. -/
theorem C3_witness :
    validateEnvironmentConfiguration "us-east-1" "development"
      (mkEnv [usEast1NoPayment]) =
      .error (.primaryRegionPaymentDisabled "us-east-1") :=
  C3_first_primary_payment.2 "us-east-1" "development" (mkEnv [usEast1NoPayment])
    usEast1NoPayment (by decide) (by decide) (by decide) (by decide) (by decide)

/-- Counterexample to claim C3 as stated: `cfgShadowedPrimary`'s development
environment contains a region named `us-east-1` (the primary region) with
`deployPayment = false` — the second of two same-named regions — yet
construction succeeds. -/
theorem C3_counterexample :
    validateConfiguration cfgShadowedPrimary "development" = .ok () ∧
    (lookupEnv cfgShadowedPrimary "development").map
      (fun e => e.regions.map (·.regionName)) = some ["us-east-1", "us-east-1"] ∧
    (lookupEnv cfgShadowedPrimary "development").map
      (fun e => e.regions.map (·.deployPayment)) = some [true, false] ∧
    cfgShadowedPrimary.crossRegionSettings.primaryRegion = "us-east-1" :=
  ⟨by decide, by decide, by decide, by decide⟩

/-- Claim C4, amended: every region of every environment of an accepted bundle
has a `regionName` matching `^[a-z]{2}-[a-z]+-\d+$` (equivalently, a bundle
with an ill-formed region name anywhere is rejected), but uniqueness of region
names within an environment is not enforced. -/
theorem C4_region_name_pattern :
    ∀ (cfg : DeploymentConfig) (cur : String),
      validateConfiguration cfg cur = .ok () →
      ∀ e ∈ cfg.environments, ∀ r ∈ e.2.regions,
        regionNameTest r.regionName.data = true := by
  intro cfg cur h e he r hr
  have henv := validateEnvironmentList_ok (validateConfiguration_ok h).2.2 e he
  have hlist := (validateEnvironmentConfiguration_ok henv).2.2.1
  exact (validateRegionConfiguration_ok (validateRegionList_ok hlist r hr)).1

/-- Witness for claim C4: the pattern conclusion evaluated on the accepted
bundle `cfgValid` at its region `us-east-1`. -/
theorem C4_witness : regionNameTest "us-east-1".data = true :=
  C4_region_name_pattern cfgValid "development" (by decide)
    ("development", mkEnv [usEast1]) (by decide) usEast1 (by decide)

/-- Counterexample to claim C4 as stated: a bundle whose development
environment lists two regions both named `us-east-1` is accepted, so region
name uniqueness is not enforced. -/
theorem C4_counterexample :
    validateConfiguration cfgDuplicateNames "development" = .ok () ∧
    (lookupEnv cfgDuplicateNames "development").map
      (fun e => e.regions.map (·.regionName)) = some ["us-east-1", "us-east-1"] ∧
    ¬ (["us-east-1", "us-east-1"] : List String).Nodup :=
  ⟨by decide, by decide, by decide⟩

/-- Claim C5, amended: a region is accepted only if it has at least two
availability zones and every zone starts with the region name; a region with
fewer than two zones is rejected with the `InvalidField`-class error naming
the region.  The zone regex `^[a-z]{2}-[a-z]+-\d+[a-z]$` of
`ConfigurationValidator.validateAvailabilityZone` is not checked by
resolution. -/
theorem C5_availability_zone_checks :
    (∀ r : RegionConfig, validateRegionConfiguration r = .ok () →
      2 ≤ r.availabilityZones.length ∧
      ∀ az ∈ r.availabilityZones, jsStartsWith az r.regionName = true) ∧
    (∀ r : RegionConfig, regionNameTest r.regionName.data = true →
      r.availabilityZones.length < 2 →
      validateRegionConfiguration r =
        .error (.insufficientAvailabilityZones r.regionName)) ∧
    (∀ (r : RegionConfig) (az : String), regionNameTest r.regionName.data = true →
      2 ≤ r.availabilityZones.length →
      r.availabilityZones.find? (fun z => !(jsStartsWith z r.regionName)) = some az →
      validateRegionConfiguration r =
        .error (.availabilityZoneMismatch az r.regionName)) := by
  refine ⟨?_, ?_, ?_⟩
  · intro r h
    exact ⟨(validateRegionConfiguration_ok h).2.1, (validateRegionConfiguration_ok h).2.2⟩
  · intro r hname hlen
    unfold validateRegionConfiguration
    rw [hname]
    simp [hlen]
  · intro r az hname hlen hfind
    unfold validateRegionConfiguration
    rw [hname]
    rw [if_neg (by simp)]
    rw [if_neg (Nat.not_lt.mpr hlen)]
    rw [hfind]

/-- Witness for claim C5: the accepted region `us-east-1` has at least two
availability zones; a one-zone variant is rejected with the count error naming
the region; a variant whose first zone `us-west-2a` lacks the region-name
prefix is rejected with the mismatch error naming that zone and the region. -/
theorem C5_witness :
    2 ≤ usEast1.availabilityZones.length ∧
    validateRegionConfiguration { usEast1 with availabilityZones := ["us-east-1a"] } =
      .error (.insufficientAvailabilityZones "us-east-1") ∧
    validateRegionConfiguration
        { usEast1 with availabilityZones := ["us-west-2a", "us-east-1a"] } =
      .error (.availabilityZoneMismatch "us-west-2a" "us-east-1") :=
  ⟨(C5_availability_zone_checks.1 usEast1 (by decide)).1,
    C5_availability_zone_checks.2.1 { usEast1 with availabilityZones := ["us-east-1a"] }
      (by decide) (by decide),
    C5_availability_zone_checks.2.2 { usEast1 with availabilityZones :=
      ["us-west-2a", "us-east-1a"] } "us-west-2a" (by decide) (by decide) (by decide)⟩

/-- Counterexample to claim C5 as stated: the region `usEast1OddZone` carries
the zone `us-east-1aa`, which violates the zone regex, yet region validation
accepts it. -/
theorem C5_counterexample :
    validateRegionConfiguration usEast1OddZone = .ok () ∧
    usEast1OddZone.availabilityZones = ["us-east-1a", "us-east-1aa"] ∧
    validateAvailabilityZone "us-east-1aa" "us-east-1" = false :=
  ⟨by decide, by decide, by decide⟩

/-- Claim C8: `shouldEnableTransitGateway` returns `true` exactly when the
bundle's transit-gateway flag is enabled and the queried region is the primary
region; for any other region, or with the flag disabled, it returns `false`. -/
theorem C8_shouldEnableTransitGateway_iff (cfg : DeploymentConfig) (regionName : String) :
    shouldEnableTransitGateway cfg regionName = true ↔
      cfg.crossRegionSettings.enableTransitGateway = true ∧
        regionName = getPrimaryRegion cfg := by
  unfold shouldEnableTransitGateway
  simp [Bool.and_eq_true]

/-- Witness for claim C8: on the default-style bundle the primary region gets
the gateway and a non-primary region does not. -/
theorem C8_witness :
    shouldEnableTransitGateway cfgValid "us-east-1" = true ∧
    shouldEnableTransitGateway cfgValid "eu-central-1" = false :=
  ⟨(C8_shouldEnableTransitGateway_iff cfgValid "us-east-1").mpr ⟨rfl, rfl⟩, by decide⟩

/-- Claim C9: for every input, the derived database tier security group has no
default-allow outbound and exactly the ingress rules 3306/tcp and 6379/tcp
from the app tier plus all traffic from itself, while the web and app tiers
allow all outbound. -/
theorem C9_database_tier_rules (props : NetworkStackProps) :
    (buildNetworkStack props).securityGroups.database.allowAllOutbound = false ∧
    (buildNetworkStack props).securityGroups.database.ingress =
      [ { peer := .appTier, port := .tcp 3306,
          description := "Allow MySQL access from app tier" },
        { peer := .appTier, port := .tcp 6379,
          description := "Allow Redis access from app tier" },
        { peer := .databaseTier, port := .allTraffic,
          description := "Allow communication within database tier" } ] ∧
    (buildNetworkStack props).securityGroups.web.allowAllOutbound = true ∧
    (buildNetworkStack props).securityGroups.app.allowAllOutbound = true :=
  ⟨rfl, rfl, rfl, rfl⟩

/-- Claim C10: every environment of an accepted bundle has a non-empty region
list, and an environment declared with an empty region list is rejected with
an error naming that environment. -/
theorem C10_nonempty_regions :
    (∀ (cfg : DeploymentConfig) (cur : String),
      validateConfiguration cfg cur = .ok () →
      ∀ e ∈ cfg.environments, e.2.regions ≠ []) ∧
    (∀ (primary env : String) (envConfig : EnvironmentConfig),
      envConfig.regions = [] →
      validateEnvironmentConfiguration primary env envConfig =
        .error (.noRegionsConfigured env)) := by
  constructor
  · intro cfg cur h e he
    exact (validateEnvironmentConfiguration_ok
      (validateEnvironmentList_ok (validateConfiguration_ok h).2.2 e he)).1
  · intro primary env envConfig hempty
    unfold validateEnvironmentConfiguration
    rw [if_pos (by simp [hempty])]

/-- Witness for claim C10: an environment with no regions is rejected with the
error naming it. -/
theorem C10_witness :
    validateEnvironmentConfiguration "us-east-1" "empty-env"
      { regions := [], stackNaming := { pfx := "X", sfx := "Y" }, tags := [],
        settings := plainSettings } = .error (.noRegionsConfigured "empty-env") :=
  C10_nonempty_regions.2 "us-east-1" "empty-env"
    { regions := [], stackNaming := { pfx := "X", sfx := "Y" }, tags := [],
      settings := plainSettings } rfl

end MultiRegionCdk
